import Mathlib

/-!
# Workload persistence, manifold test helper and workload IDs

A shallow embedding of

* `workload/persistence/workloads.go` (`Persistence.Track`, `Persistence.List`,
  `Persistence.ListAll`),
* `worker/testing/agentapi.go` (`AgentApiManifoldTestConfig`, `RunAgentApiManifold`),
* `workload.ParseID` as exercised by `workload/id_test.go`,

followed by the properties established about them.

Conventions of the embedding:

* a Go `error` value is `Option Err` (`none` is `nil`);
* a Go pointer that may be `nil` is an `Option`; dereferencing `nil` is the
  outcome `Outcome.panic`;
* a Go slice is a `List` (the `nil` slice and the empty slice are both `[]`);
* a Go closure that assigns to a captured variable is a function that takes and
  returns the value of that variable.
-/

set_option autoImplicit false

namespace Juju

/-! ## Errors (`github.com/juju/errors`, `github.com/juju/txn`) -/

/-- Error values. `traced` is the annotation added by `errors.Trace`; the other
constructors are the underlying causes. -/
inductive Err where
  | notValid (msg : String)
  | notFound (msg : String)
  | noOperations
  | transientFailure
  | excessiveContention
  | other (msg : String)
  | traced (inner : Err)
  deriving DecidableEq, Repr

/-- `errors.Cause`: strips the annotations down to the underlying error. -/
def Cause : Err → Err
  | .traced e => Cause e
  | e => e

/-- `errors.IsNotValid`: the cause of the error is a `NotValid` error. -/
def IsNotValid (e : Err) : Bool :=
  match Cause e with
  | .notValid _ => true
  | _ => false

/-- `errors.Trace`: `nil` stays `nil`, any other error is annotated. -/
def Trace : Option Err → Option Err
  | none => none
  | some e => some (.traced e)

/-- What running a piece of Go code yields: it returns a value or it panics
(here: a `nil` pointer dereference). -/
inductive Outcome (α : Type) where
  | ret (a : α)
  | panic
  deriving DecidableEq, Repr

/-! ## `workload/persistence/workloads.go` -/

section Persistence

variable {Info Doc Op : Type}

/-- The `map[string]workloadDoc` handed around by the persistence layer, as the
list of its entries in the order in which a `range` loop visits them. -/
abbrev WorkloadDocs (Doc : Type) := List (String × Doc)

/-- `jujutxn.TransactionSource`: given the attempt number it produces the ops to
run or an error. The `Bool` threaded through is the variable the closures of
this file capture and assign (`okay`, `found`). -/
abbrev TransactionSource (Op : Type) := Nat → Bool → (Except Err (List Op)) × Bool

/-- `PersistenceBase`: the part of the interface used here. `Run` receives the
transaction source together with the current value of its captured variable and
returns its error together with the final value of that variable. -/
structure PersistenceBase (Op : Type) where
  Run : TransactionSource Op → Bool → Option Err × Bool

/-- `Persistence`: the base persistence `st` plus the methods of `Persistence`
that `workloads.go` calls but does not define (`workloads`, `allWorkloads`,
`extractWorkload`, `newInsertWorkloadOps`), taken as parameters. `extractWorkload`
returns a `*workload.Info` (possibly `nil`) and a `bool`. -/
structure Persistence (Info Doc Op : Type) where
  st : PersistenceBase Op
  workloads : List String → Except Err (WorkloadDocs Doc)
  allWorkloads : Except Err (WorkloadDocs Doc)
  extractWorkload : String → WorkloadDocs Doc → Option Info × Bool
  newInsertWorkloadOps : String → Info → List Op

/-- The closure `buildTxn` of `Track`: on a retry it sets `okay = false` and
returns `ErrNoOperations`, on the first attempt it sets `okay = true` and
returns the ops. -/
def buildTxn (ops : List Op) : TransactionSource Op :=
  fun attempt _okay =>
    if attempt > 0 then
      (.error Err.noOperations, false)
    else
      (.ok ops, true)

/-- `Persistence.Track`. -/
def Persistence.Track (pp : Persistence Info Doc Op) (id : String) (info : Info) :
    Bool × Option Err :=
  let okay := false
  let ops := [] ++ pp.newInsertWorkloadOps id info
  match pp.st.Run (buildTxn ops) okay with
  | (some err, _) => (false, Trace (some err))
  | (none, okay) => (okay, none)

/-- The `for id := range workloadDocs` loop of `Persistence.ListAll`: the `bool`
returned by `extractWorkload` is discarded and the pointer is dereferenced. -/
def listAllLoop (pp : Persistence Info Doc Op) (workloadDocs : WorkloadDocs Doc) :
    List String → List Info → Outcome (List Info)
  | [], results => .ret results
  | id :: rest, results =>
    match pp.extractWorkload id workloadDocs with
    | (none, _) => .panic
    | (some w, _) => listAllLoop pp workloadDocs rest (results ++ [w])

/-- `Persistence.ListAll`. -/
def Persistence.ListAll (pp : Persistence Info Doc Op) :
    Outcome (List Info × Option Err) :=
  match pp.allWorkloads with
  | .error err => .ret ([], Trace (some err))
  | .ok workloadDocs =>
    match listAllLoop pp workloadDocs (workloadDocs.map Prod.fst) [] with
    | .panic => .panic
    | .ret results => .ret (results, none)

/-- The `for _, id := range ids` loop of `Persistence.List`, with the two
slices it appends to. -/
def listLoop (pp : Persistence Info Doc Op) (workloadDocs : WorkloadDocs Doc) :
    List String → List Info → List String → Outcome (List Info × List String)
  | [], results, missing => .ret (results, missing)
  | id :: rest, results, missing =>
    match pp.extractWorkload id workloadDocs with
    | (_, false) => listLoop pp workloadDocs rest results (missing ++ [id])
    | (none, true) => .panic
    | (some w, true) => listLoop pp workloadDocs rest (results ++ [w]) missing

/-- `Persistence.List`. -/
def Persistence.List (pp : Persistence Info Doc Op) (ids : List String) :
    Outcome (List Info × List String × Option Err) :=
  match pp.workloads ids with
  | .error err => .ret ([], [], Trace (some err))
  | .ok workloadDocs =>
    match listLoop pp workloadDocs ids [] [] with
    | .panic => .panic
    | .ret (results, missing) => .ret (results, missing, none)

/-- What the store does with the ops of one attempt: it applies them, aborts
the transaction because an assertion of the ops failed, or fails otherwise. -/
inductive TxnOutcome where
  | applied
  | aborted
  | failed (e : Err)
  deriving DecidableEq, Repr

/-- Modelled from the spec: the implementation behind `PersistenceBase.Run` is
not among the sources. `Run` "runs the transaction generated by the provided
factory function" and "may be retried several times": starting at `attempt` it
calls the source with attempt numbers in increasing order, returns `nil` when
the built ops are applied or the source returns `ErrNoOperations`, asks for a
further attempt when the ops are aborted (or the source reports a transient
failure), returns any other error, and gives up with excessive contention after
`fuel` attempts. `apply attempt ops` is what the store does with the ops. -/
def txnRunFrom (apply : Nat → List Op → TxnOutcome) (transactions : TransactionSource Op) :
    Nat → Nat → Bool → Option Err × Bool
  | 0, _, s => (some Err.excessiveContention, s)
  | fuel + 1, attempt, s =>
    match transactions attempt s with
    | (.error Err.transientFailure, s1) => txnRunFrom apply transactions fuel (attempt + 1) s1
    | (.error Err.noOperations, s1) => (none, s1)
    | (.error err, s1) => (some err, s1)
    | (.ok ops, s1) =>
      match apply attempt ops with
      | .applied => (none, s1)
      | .aborted => txnRunFrom apply transactions fuel (attempt + 1) s1
      | .failed err => (some err, s1)

/-- A transaction runner that makes at most `nrRetries` attempts, numbered from 0. -/
def txnRun (apply : Nat → List Op → TxnOutcome) (nrRetries : Nat) :
    TransactionSource Op → Bool → Option Err × Bool :=
  fun transactions s => txnRunFrom apply transactions nrRetries 0 s

/-- The `Run` of `st` is a transaction runner over a store behaving as `apply`,
making at most `nrRetries` attempts. -/
def RunsTransactions (st : PersistenceBase Op) (apply : Nat → List Op → TxnOutcome)
    (nrRetries : Nat) : Prop :=
  ∀ transactions s, st.Run transactions s = txnRun apply nrRetries transactions s

end Persistence

/-! ## `worker/testing/agentapi.go` -/

section AgentApi

variable {A C V W σ : Type}

/-- `util.AgentApiManifoldConfig`. -/
structure AgentApiManifoldConfig where
  AgentName : String
  APICallerName : String
  deriving DecidableEq, Repr

/-- `AgentApiManifoldTestConfig`. -/
def AgentApiManifoldTestConfig : AgentApiManifoldConfig :=
  { AgentName := "agent-name", APICallerName := "api-caller-name" }

/-- Non-nil values of the interface `agent.Agent`: an implementation supplied
from outside (`A`) or the `dummyAgent` of this file. -/
inductive Agent (A : Type) where
  | impl (a : A)
  | dummyAgent
  deriving DecidableEq, Repr

/-- The arguments of `base.APICaller.APICall`. -/
structure APICallArgs (V : Type) where
  objType : String
  version : Int
  id : String
  request : String
  params : V
  response : V

/-- Non-nil values of the interface `base.APICaller`: an implementation supplied
from outside (`C`) or a `basetesting.APICallerFunc` wrapping a function. -/
inductive APICaller (C V : Type) where
  | impl (c : C)
  | APICallerFunc (f : APICallArgs V → Option Err)

/-- Modelled from the spec: `basetesting.APICallerFunc` is not among the
sources; calling `APICall` on it calls the wrapped function. `callImpl` is
`APICall` of the implementations supplied from outside. -/
def APICaller.APICall (callImpl : C → APICallArgs V → Option Err) :
    APICaller C V → APICallArgs V → Option Err
  | .impl c, args => callImpl c args
  | .APICallerFunc f, args => f args

/-- The `interface{}` values stored as resources by this file. -/
inductive Resource (A C V : Type) where
  | agent (a : Agent A)
  | apiCaller (c : APICaller C V)

/-- The context handed to a manifold's start func: an abort channel (`nil` here)
and the named resources. -/
structure Context (A C V : Type) where
  abort : Option Unit
  resources : List (String × Resource A C V)

/-- Modelled from the spec: `dt.StubContext` is not among the sources; it builds
the context that holds the abort channel and resolves exactly the named
resources it is given. -/
def StubContext (abort : Option Unit) (raw : List (String × Resource A C V)) :
    Context A C V :=
  { abort := abort, resources := raw }

/-- Resolution of a named resource in a context. -/
def Context.lookup (ctx : Context A C V) (name : String) : Option (Resource A C V) :=
  (ctx.resources.find? (fun r => r.1 == name)).map Prod.snd

/-- `dependency.Manifold`: the start func, acting on the state `σ` of the
surroundings and returning `(worker.Worker, error)`. -/
structure Manifold (A C V W σ : Type) where
  Start : Context A C V → σ → (W × Option Err) × σ

/-- `RunAgentApiManifold`. -/
def RunAgentApiManifold (manifold : Manifold A C V W σ) (agent : Option (Agent A))
    (apiCaller : Option (APICaller C V)) : σ → (W × Option Err) × σ :=
  let agent :=
    match agent with
    | none => Agent.dummyAgent
    | some a => a
  let apiCaller :=
    match apiCaller with
    | none => APICaller.APICallerFunc (fun _ => none)
    | some c => c
  let context := StubContext none
    [("agent-name", Resource.agent agent), ("api-caller-name", Resource.apiCaller apiCaller)]
  manifold.Start context

/-- The manifold `manifold` with every call of its start func recorded: the state
carries the list of the contexts the start func was called with, oldest first. -/
def recordStarts (manifold : Manifold A C V W σ) :
    Manifold A C V W (σ × List (Context A C V)) :=
  { Start := fun ctx s =>
      let r := manifold.Start ctx s.1
      (r.1, (r.2, s.2 ++ [ctx])) }

end AgentApi

/-! ## `workload.ParseID` -/

/-- Splits a string at its first `'/'`: the part before it, and the part after
it when there is one. -/
def splitFirstSlash : List Char → List Char × Option (List Char)
  | [] => ([], none)
  | c :: cs =>
    if c = '/' then
      ([], some cs)
    else
      match splitFirstSlash cs with
      | (name, rest) => (c :: name, rest)

/-- Modelled from the spec: `workload.ParseID` is not among the sources, only its
tests are. It splits an ID at its first `"/"` into at most two parts and
returns them; an ID without `"/"` is returned whole, with an empty second part. -/
def ParseID (id : String) : String × String :=
  match splitFirstSlash id.data with
  | (name, some rest) => (String.mk name, String.mk rest)
  | (_, none) => (id, "")

/-! ## Concrete instances used to evaluate the definitions -/

/-- A store on which every transaction is applied at once. -/
def applyAlways : Nat → List String → TxnOutcome := fun _ _ => .applied

/-- A store on which the first attempt is aborted and later ones are applied. -/
def abortFirst : Nat → List String → TxnOutcome :=
  fun attempt _ => if attempt = 0 then .aborted else .applied

/-- A persistence over string-valued documents: a record is found when its ID is
a key of the documents, and its info is the document itself. -/
def samplePersistence (apply : Nat → List String → TxnOutcome)
    (stored : WorkloadDocs String) : Persistence String String String :=
  { st := { Run := txnRun apply 3 }
    workloads := fun ids => .ok (stored.filter (fun kv => ids.contains kv.1))
    allWorkloads := .ok stored
    extractWorkload := fun id docs =>
      match docs.find? (fun kv => kv.1 == id) with
      | some kv => (some kv.2, true)
      | none => (none, false)
    newInsertWorkloadOps := fun id info => ["insert " ++ id ++ " " ++ info] }

/-- A persistence over documents whose workload may be absent (a record that
is stored but incomplete): `extractWorkload` looks the ID up in the documents it
is handed and yields the workload of the document found, when it holds one. -/
def recordPersistence (stored : WorkloadDocs (Option String)) :
    Persistence String (Option String) String :=
  { st := { Run := txnRun applyAlways 3 }
    workloads := fun ids => .ok (stored.filter (fun kv => ids.contains kv.1))
    allWorkloads := .ok stored
    extractWorkload := fun id docs =>
      match docs.find? (fun kv => kv.1 == id) with
      | some (_, some w) => (some w, true)
      | _ => (none, false)
    newInsertWorkloadOps := fun id info => ["insert " ++ id ++ " " ++ info] }

/-- A persistence whose lookup of all workloads fails with the error `err`. -/
def failedLookupPersistence (err : Err) : Persistence String String String :=
  { st := { Run := txnRun applyAlways 3 }
    workloads := fun _ => .error err
    allWorkloads := .error err
    extractWorkload := fun id docs =>
      match docs.find? (fun kv => kv.1 == id) with
      | some kv => (some kv.2, true)
      | none => (none, false)
    newInsertWorkloadOps := fun id info => ["insert " ++ id ++ " " ++ info] }

end Juju

/-! ## Properties -/

namespace Juju

section PersistenceProps

variable {Info Doc Op : Type}

/-- The loop of `Persistence.List` appends, to the slices it starts from, the
infos of the ids with a record and the ids without one, both in the order of
`ids`, provided every reported record comes with a non-nil pointer. -/
theorem listLoop_partition (pp : Persistence Info Doc Op) (docs : WorkloadDocs Doc)
    (ids : List String)
    (hptr : ∀ id ∈ ids, (pp.extractWorkload id docs).2 = true →
      (pp.extractWorkload id docs).1 ≠ none) :
    ∀ results missing, ∃ found : List Info,
      found.map some = (ids.filter (fun id => (pp.extractWorkload id docs).2)).map
        (fun id => (pp.extractWorkload id docs).1) ∧
      listLoop pp docs ids results missing =
        .ret (results ++ found,
          missing ++ ids.filter (fun id => !(pp.extractWorkload id docs).2)) := by
  induction ids with
  | nil =>
    intro results missing
    exact ⟨[], by simp, by simp [listLoop]⟩
  | cons id rest ih =>
    intro results missing
    have hrest : ∀ id ∈ rest, (pp.extractWorkload id docs).2 = true →
        (pp.extractWorkload id docs).1 ≠ none :=
      fun i hi => hptr i (List.mem_cons_of_mem _ hi)
    have hhead := hptr id (List.mem_cons_self _ _)
    rcases hex : pp.extractWorkload id docs with ⟨ptr, ok⟩
    rw [hex] at hhead
    cases ok with
    | false =>
      obtain ⟨found, hfound, hloop⟩ := ih hrest results (missing ++ [id])
      refine ⟨found, ?_, ?_⟩
      · simp [List.filter_cons, hex, hfound]
      · simp [listLoop, hex, hloop, List.filter_cons]
    | true =>
      cases ptr with
      | none => exact absurd rfl (hhead rfl)
      | some w =>
        obtain ⟨found, hfound, hloop⟩ := ih hrest (results ++ [w]) missing
        refine ⟨w :: found, ?_, ?_⟩
        · simp [List.filter_cons, hex, hfound]
        · simp [listLoop, hex, hloop, List.filter_cons]

/-- The loop of `Persistence.List` panics as soon as some id has a reported
record whose pointer is `nil`. -/
theorem listLoop_panics_on_nil_record (pp : Persistence Info Doc Op)
    (docs : WorkloadDocs Doc) (ids : List String)
    (h : ∃ id ∈ ids, pp.extractWorkload id docs = (none, true)) :
    ∀ results missing, listLoop pp docs ids results missing = .panic := by
  induction ids with
  | nil =>
    obtain ⟨_, hmem, _⟩ := h
    cases hmem
  | cons id rest ih =>
    intro results missing
    obtain ⟨bad, hmem, hbad⟩ := h
    rcases hex : pp.extractWorkload id docs with ⟨ptr, ok⟩
    have hrest : (ptr, ok) ≠ (none, true) → ∃ i ∈ rest, pp.extractWorkload i docs = (none, true) := by
      intro hne
      rcases List.mem_cons.mp hmem with e | m
      · subst e
        rw [hex] at hbad
        exact absurd hbad hne
      · exact ⟨bad, m, hbad⟩
    cases ok with
    | false =>
      simp only [listLoop, hex]
      exact ih (hrest (by simp)) results (missing ++ [id])
    | true =>
      cases ptr with
      | none => simp only [listLoop, hex]
      | some w =>
        simp only [listLoop, hex]
        exact ih (hrest (by simp)) (results ++ [w]) missing

/-- C1: when the lookup succeeds (and every record `extractWorkload` reports comes
with a workload), `Persistence.List` returns no error, `missing` is exactly the
subsequence of `ids` for which `extractWorkload` reports no record, `results`
are the workload infos of the remaining ids in the order of `ids`, and
`len(results) + len(missing) = len(ids)`, each occurrence of an id counting. -/
theorem List_partitions_ids (pp : Persistence Info Doc Op) (ids : List String)
    (docs : WorkloadDocs Doc) (hlookup : pp.workloads ids = .ok docs)
    (hptr : ∀ id ∈ ids, (pp.extractWorkload id docs).2 = true →
      (pp.extractWorkload id docs).1 ≠ none) :
    ∃ results missing, pp.List ids = .ret (results, missing, none) ∧
      missing = ids.filter (fun id => !(pp.extractWorkload id docs).2) ∧
      results.map some = (ids.filter (fun id => (pp.extractWorkload id docs).2)).map
        (fun id => (pp.extractWorkload id docs).1) ∧
      results.length + missing.length = ids.length := by
  obtain ⟨found, hfound, hloop⟩ := listLoop_partition pp docs ids hptr [] []
  refine ⟨found, ids.filter (fun id => !(pp.extractWorkload id docs).2), ?_, rfl, hfound, ?_⟩
  · simp [Persistence.List, hlookup, hloop]
  · have hlen : found.length =
        (ids.filter (fun id => (pp.extractWorkload id docs).2)).length := by
      have := congrArg List.length hfound
      simpa using this
    rw [hlen]
    have := List.length_eq_length_filter_add (l := ids)
      (fun id => (pp.extractWorkload id docs).2)
    omega

/-- Witness for C1 on the ids `a, b, c, a` over stored records `a` and `c`: the
hypotheses hold there, and the call returns `A, C, A` with `b` missing. -/
theorem List_partitions_ids_witness :
    (samplePersistence applyAlways [("a", "A"), ("c", "C")]).List ["a", "b", "c", "a"] =
        .ret (["A", "C", "A"], ["b"], none) ∧
      ∃ results missing,
        (samplePersistence applyAlways [("a", "A"), ("c", "C")]).List ["a", "b", "c", "a"] =
          .ret (results, missing, none) ∧
        missing = ["a", "b", "c", "a"].filter (fun id =>
          !((samplePersistence applyAlways [("a", "A"), ("c", "C")]).extractWorkload id
            [("a", "A"), ("c", "C")]).2) ∧
        results.map some = (["a", "b", "c", "a"].filter (fun id =>
          ((samplePersistence applyAlways [("a", "A"), ("c", "C")]).extractWorkload id
            [("a", "A"), ("c", "C")]).2)).map (fun id =>
          ((samplePersistence applyAlways [("a", "A"), ("c", "C")]).extractWorkload id
            [("a", "A"), ("c", "C")]).1) ∧
        results.length + missing.length = ["a", "b", "c", "a"].length :=
  ⟨by decide,
    List_partitions_ids (samplePersistence applyAlways [("a", "A"), ("c", "C")])
      ["a", "b", "c", "a"] [("a", "A"), ("c", "C")] rfl (by decide)⟩

/-- When the lookup of all workloads succeeds, `Persistence.ListAll` either
panics or returns a list with a `nil` error: it has no path on which an
inconsistent record becomes an error. -/
theorem ListAll_panics_or_no_error (pp : Persistence Info Doc Op) (docs : WorkloadDocs Doc)
    (hlookup : pp.allWorkloads = .ok docs) :
    pp.ListAll = .panic ∨ ∃ results, pp.ListAll = .ret (results, none) := by
  unfold Persistence.ListAll
  rw [hlookup]
  cases hloop : listAllLoop pp docs (docs.map Prod.fst) [] with
  | panic => exact Or.inl (by simp only [hloop])
  | ret results => exact Or.inr ⟨results, by simp only [hloop]⟩

/-- The only error `Persistence.ListAll` returns is the traced error of the
lookup of all workloads. -/
theorem ListAll_error_is_lookup_error (pp : Persistence Info Doc Op) (results : List Info)
    (e : Err) (h : pp.ListAll = .ret (results, some e)) :
    ∃ err, pp.allWorkloads = .error err ∧ e = .traced err := by
  unfold Persistence.ListAll at h
  cases hl : pp.allWorkloads with
  | error err =>
    rw [hl] at h
    simp only [Trace, Outcome.ret.injEq, Prod.mk.injEq, Option.some.injEq] at h
    exact ⟨err, rfl, h.2.symm⟩
  | ok docs =>
    rw [hl] at h
    cases hloop : listAllLoop pp docs (docs.map Prod.fst) [] with
    | panic => simp [hloop] at h
    | ret rs => simp [hloop] at h

/-- The loop of `Persistence.ListAll` appends, to the slice it starts from, the
info behind the pointer `extractWorkload` yields for each id, in the order of
the ids, whatever the `bool` returned with it. -/
theorem listAllLoop_returns (pp : Persistence Info Doc Op) (docs : WorkloadDocs Doc)
    (ids : List String) (hptr : ∀ id ∈ ids, (pp.extractWorkload id docs).1 ≠ none) :
    ∀ results, ∃ found : List Info,
      found.map some = ids.map (fun id => (pp.extractWorkload id docs).1) ∧
      listAllLoop pp docs ids results = .ret (results ++ found) := by
  induction ids with
  | nil =>
    intro results
    exact ⟨[], by simp, by simp [listAllLoop]⟩
  | cons id rest ih =>
    intro results
    have hrest : ∀ i ∈ rest, (pp.extractWorkload i docs).1 ≠ none :=
      fun i hi => hptr i (List.mem_cons_of_mem _ hi)
    have hhead := hptr id (List.mem_cons_self _ _)
    rcases hex : pp.extractWorkload id docs with ⟨ptr, ok⟩
    rw [hex] at hhead
    cases ptr with
    | none => exact absurd rfl hhead
    | some w =>
      obtain ⟨found, hfound, hloop⟩ := ih hrest (results ++ [w])
      refine ⟨w :: found, ?_, ?_⟩
      · simp [hex, hfound]
      · simp [listAllLoop, hex, hloop]

/-- C3 (the claim as stated fails): over the stored documents `a` (complete) and
`b` (incomplete: `extractWorkload` yields no workload for it), the lookup of all
workloads succeeds and `Persistence.ListAll` does not return an error satisfying
`errors.IsNotValid`; it returns no error at all (the dereference of the `nil`
pointer panics). -/
theorem ListAll_inconsistent_record_not_reported :
    (recordPersistence [("a", some "A"), ("b", none)]).allWorkloads =
        .ok [("a", some "A"), ("b", none)] ∧
      (recordPersistence [("a", some "A"), ("b", none)]).extractWorkload "b"
        [("a", some "A"), ("b", none)] = (none, false) ∧
      (recordPersistence [("a", some "A"), ("b", none)]).ListAll = .panic ∧
      (∀ results e, (recordPersistence [("a", some "A"), ("b", none)]).ListAll ≠
        .ret (results, some e)) ∧
      ¬ ∃ results e, (recordPersistence [("a", some "A"), ("b", none)]).ListAll =
        .ret (results, some e) ∧ IsNotValid e = true := by
  have hno : ∀ results e, (recordPersistence [("a", some "A"), ("b", none)]).ListAll ≠
      .ret (results, some e) := by
    intro results e h
    obtain ⟨err, herr, -⟩ := ListAll_error_is_lookup_error _ results e h
    cases herr
  refine ⟨rfl, rfl, by decide, hno, ?_⟩
  rintro ⟨results, e, h, -⟩
  exact hno results e h

/-- C3 (amended): `Persistence.ListAll` does not check records for consistency.
When the lookup of all workloads fails it returns the traced error of the lookup
and no result list, and that error satisfies `errors.IsNotValid` exactly when
the error of the lookup does. When the lookup succeeds and `extractWorkload`
yields a workload for every stored id, it returns the info of every stored
record, in the order of iteration, with a `nil` error. It returns no other
error. -/
theorem ListAll_error_only_from_lookup (pp : Persistence Info Doc Op) :
    (∀ err, pp.allWorkloads = .error err →
        pp.ListAll = .ret ([], some (.traced err)) ∧
        IsNotValid (.traced err) = IsNotValid err) ∧
      (∀ docs, pp.allWorkloads = .ok docs →
        (∀ id ∈ docs.map Prod.fst, (pp.extractWorkload id docs).1 ≠ none) →
        ∃ results, pp.ListAll = .ret (results, none) ∧
          results.map some =
            (docs.map Prod.fst).map (fun id => (pp.extractWorkload id docs).1)) ∧
      (∀ results e, pp.ListAll = .ret (results, some e) →
        results = [] ∧ ∃ err, pp.allWorkloads = .error err ∧ e = .traced err) := by
  refine ⟨?_, ?_, ?_⟩
  · intro err hl
    refine ⟨?_, ?_⟩
    · simp [Persistence.ListAll, hl, Trace]
    · simp [IsNotValid, Cause]
  · intro docs hl hptr
    obtain ⟨found, hfound, hloop⟩ := listAllLoop_returns pp docs (docs.map Prod.fst) hptr []
    refine ⟨found, ?_, hfound⟩
    simp only [Persistence.ListAll, hl, hloop, List.nil_append]
  · intro results e h
    obtain ⟨err, herr, he⟩ := ListAll_error_is_lookup_error pp results e h
    refine ⟨?_, err, herr, he⟩
    simp only [Persistence.ListAll, herr, Trace, Outcome.ret.injEq, Prod.mk.injEq] at h
    exact h.1.symm

/-- Witness for C3 (amended): a failed lookup with a `NotValid` error is returned
traced, with no result list, and still satisfies `errors.IsNotValid`; a
successful lookup of the complete records `a` and `c` returns both infos and a
`nil` error. -/
theorem ListAll_error_only_from_lookup_witness :
    ((failedLookupPersistence (.notValid "bad query")).allWorkloads =
          .error (.notValid "bad query") ∧
        (failedLookupPersistence (.notValid "bad query")).ListAll =
          .ret ([], some (.traced (.notValid "bad query"))) ∧
        IsNotValid (.traced (.notValid "bad query")) = true) ∧
      ((samplePersistence applyAlways [("a", "A"), ("c", "C")]).allWorkloads =
          .ok [("a", "A"), ("c", "C")] ∧
        (samplePersistence applyAlways [("a", "A"), ("c", "C")]).ListAll =
          .ret (["A", "C"], none) ∧
        ∃ results, (samplePersistence applyAlways [("a", "A"), ("c", "C")]).ListAll =
            .ret (results, none) ∧
          results.map some = ([("a", "A"), ("c", "C")].map Prod.fst).map (fun id =>
            ((samplePersistence applyAlways [("a", "A"), ("c", "C")]).extractWorkload id
              [("a", "A"), ("c", "C")]).1)) :=
  ⟨⟨rfl,
      ((ListAll_error_only_from_lookup (failedLookupPersistence (.notValid "bad query"))).1
        (.notValid "bad query") rfl).1,
      by decide⟩,
    ⟨rfl, by decide,
      (ListAll_error_only_from_lookup (samplePersistence applyAlways [("a", "A"), ("c", "C")])).2.1
        [("a", "A"), ("c", "C")] rfl (by decide)⟩⟩

/-- With at least one attempt allowed, the runner returns `nil` and leaves
`okay = true` when the ops built at attempt 0 are applied. -/
theorem txnRun_buildTxn_applied (apply : Nat → List Op → TxnOutcome) (nrRetries : Nat)
    (ops : List Op) (okay : Bool) (hn : 1 ≤ nrRetries) (happly : apply 0 ops = .applied) :
    txnRun apply nrRetries (buildTxn ops) okay = (none, true) := by
  obtain ⟨n, rfl⟩ : ∃ n, nrRetries = n + 1 := ⟨nrRetries - 1, by omega⟩
  simp [txnRun, txnRunFrom, buildTxn, happly]

/-- With at least two attempts allowed, the runner returns `nil` and leaves
`okay = false` when the ops built at attempt 0 are aborted: the source is asked
again and answers `ErrNoOperations`. -/
theorem txnRun_buildTxn_aborted (apply : Nat → List Op → TxnOutcome) (nrRetries : Nat)
    (ops : List Op) (okay : Bool) (hn : 2 ≤ nrRetries) (happly : apply 0 ops = .aborted) :
    txnRun apply nrRetries (buildTxn ops) okay = (none, false) := by
  obtain ⟨n, rfl⟩ : ∃ n, nrRetries = n + 2 := ⟨nrRetries - 2, by omega⟩
  simp [txnRun, txnRunFrom, buildTxn, happly]

/-- C2: for a `PersistenceBase` whose `Run` calls the transaction source with
attempt 0, 1, ... and returns `nil` when the ops are applied or the source
returns `ErrNoOperations`, `Track` returns `(true, nil)` when the insert ops
built at attempt 0 are applied, and `(false, nil)` when they are aborted by a
failed assertion and `Run` asks for a further attempt. -/
theorem Track_reports_insertion (pp : Persistence Info Doc Op)
    (apply : Nat → List Op → TxnOutcome) (nrRetries : Nat) (id : String) (info : Info)
    (hRun : RunsTransactions pp.st apply nrRetries) (hn : 2 ≤ nrRetries) :
    (apply 0 (pp.newInsertWorkloadOps id info) = .applied →
        pp.Track id info = (true, none)) ∧
      (apply 0 (pp.newInsertWorkloadOps id info) = .aborted →
        pp.Track id info = (false, none)) := by
  constructor
  · intro happly
    have h := txnRun_buildTxn_applied apply nrRetries (pp.newInsertWorkloadOps id info)
      false (by omega) happly
    simp [Persistence.Track, hRun _ _, h]
  · intro happly
    have h := txnRun_buildTxn_aborted apply nrRetries (pp.newInsertWorkloadOps id info)
      false hn happly
    simp [Persistence.Track, hRun _ _, h]

/-- Witness for C2: a runner with three attempts over a store that applies the
insert at once gives `(true, nil)`, and over a store that aborts the first
attempt gives `(false, nil)`. -/
theorem Track_reports_insertion_witness :
    (RunsTransactions (samplePersistence applyAlways []).st applyAlways 3 ∧
        applyAlways 0 ((samplePersistence applyAlways []).newInsertWorkloadOps "w/0" "info")
          = .applied ∧
        (samplePersistence applyAlways []).Track "w/0" "info" = (true, none)) ∧
      (RunsTransactions (samplePersistence abortFirst []).st abortFirst 3 ∧
        abortFirst 0 ((samplePersistence abortFirst []).newInsertWorkloadOps "w/0" "info")
          = .aborted ∧
        (samplePersistence abortFirst []).Track "w/0" "info" = (false, none)) :=
  ⟨⟨fun _ _ => rfl, rfl,
      (Track_reports_insertion (samplePersistence applyAlways []) applyAlways 3 "w/0" "info"
        (fun _ _ => rfl) (by decide)).1 rfl⟩,
    ⟨fun _ _ => rfl, rfl,
      (Track_reports_insertion (samplePersistence abortFirst []) abortFirst 3 "w/0" "info"
        (fun _ _ => rfl) (by decide)).2 rfl⟩⟩

end PersistenceProps

section AgentApiProps

variable {A C V W σ : Type}

/-- C4: `RunAgentApiManifold` calls the manifold's start func exactly once and
returns the result of that call unchanged; the context it passes holds exactly
two resources, named by the `AgentName` and `APICallerName` of
`AgentApiManifoldTestConfig` (`"agent-name"`, `"api-caller-name"`); under the
agent name is the supplied agent, or the dummy agent when `nil` was supplied;
under the api-caller name is the supplied caller, or, when `nil` was supplied, a
caller whose every call returns `nil`. -/
theorem RunAgentApiManifold_starts_once (manifold : Manifold A C V W σ)
    (agent : Option (Agent A)) (apiCaller : Option (APICaller C V))
    (callImpl : C → APICallArgs V → Option Err) (s : σ) :
    ∃ ctx : Context A C V,
      RunAgentApiManifold manifold agent apiCaller s = manifold.Start ctx s ∧
      (RunAgentApiManifold (recordStarts manifold) agent apiCaller (s, [])).2.2 = [ctx] ∧
      ctx.resources.map Prod.fst =
        [AgentApiManifoldTestConfig.AgentName, AgentApiManifoldTestConfig.APICallerName] ∧
      AgentApiManifoldTestConfig.AgentName = "agent-name" ∧
      AgentApiManifoldTestConfig.APICallerName = "api-caller-name" ∧
      ctx.lookup AgentApiManifoldTestConfig.AgentName =
        some (Resource.agent (match agent with
          | some a => a
          | none => Agent.dummyAgent)) ∧
      ∃ c : APICaller C V,
        ctx.lookup AgentApiManifoldTestConfig.APICallerName = some (Resource.apiCaller c) ∧
        match apiCaller with
        | some given => c = given
        | none => ∀ args, c.APICall callImpl args = none := by
  cases agent <;> cases apiCaller <;>
    exact ⟨_, rfl, rfl, rfl, rfl, rfl, rfl, _, rfl, by first | rfl | exact fun _ => rfl⟩

end AgentApiProps

section ParseIDProps

/-- Without a `'/'` the split returns the whole list and no second part. -/
theorem splitFirstSlash_of_not_mem (l : List Char) (h : '/' ∉ l) :
    splitFirstSlash l = (l, none) := by
  induction l with
  | nil => rfl
  | cons c cs ih =>
    have hc : c ≠ '/' := fun e => h (e ▸ List.mem_cons_self _ _)
    have hcs : '/' ∉ cs := fun m => h (List.mem_cons_of_mem _ m)
    simp [splitFirstSlash, hc, ih hcs]

/-- With a `'/'` the split returns the characters before the first `'/'` and
the characters after it. -/
theorem splitFirstSlash_of_mem (l : List Char) (h : '/' ∈ l) :
    splitFirstSlash l =
      (l.takeWhile (fun c => c != '/'), some (l.dropWhile (fun c => c != '/')).tail) := by
  induction l with
  | nil => cases h
  | cons c cs ih =>
    by_cases hc : c = '/'
    · simp [splitFirstSlash, hc]
    · have hcs : '/' ∈ cs := by
        rcases List.mem_cons.mp h with e | m
        · exact absurd e.symm hc
        · exact m
      simp [splitFirstSlash, hc, ih hcs]

/-- The characters before the first `'/'`, a `'/'` and the characters after it
make up the list again. -/
theorem takeWhile_slash_tail (l : List Char) (h : '/' ∈ l) :
    l.takeWhile (fun c => c != '/') ++ '/' :: (l.dropWhile (fun c => c != '/')).tail = l := by
  induction l with
  | nil => cases h
  | cons c cs ih =>
    by_cases hc : c = '/'
    · simp [hc]
    · have hcs : '/' ∈ cs := by
        rcases List.mem_cons.mp h with e | m
        · exact absurd e.symm hc
        · exact m
      simp [hc, ih hcs]

/-- No `'/'` occurs before the first `'/'`. -/
theorem not_mem_takeWhile_slash (l : List Char) :
    '/' ∉ l.takeWhile (fun c => c != '/') := by
  intro hm
  have := List.mem_takeWhile_imp hm
  simp at this

/-- C5: `ParseID` splits an ID at its first `"/"` only. For `s` without `"/"`,
`ParseID s = (s, "")`. For `s` with a `"/"`, `ParseID s = (name, id)` where
`name` is the part of `s` before the first `"/"` (so it contains no `"/"`), `id`
is everything after that first `"/"`, and `name + "/" + id = s`. -/
theorem ParseID_splits_at_first_slash (s : String) :
    ('/' ∉ s.data → ParseID s = (s, "")) ∧
      ('/' ∈ s.data →
        (ParseID s).1.data = s.data.takeWhile (fun c => c != '/') ∧
        '/' ∉ (ParseID s).1.data ∧
        (ParseID s).2.data = (s.data.dropWhile (fun c => c != '/')).tail ∧
        (ParseID s).1 ++ "/" ++ (ParseID s).2 = s) := by
  constructor
  · intro h
    simp [ParseID, splitFirstSlash_of_not_mem s.data h]
  · intro h
    have hsplit := splitFirstSlash_of_mem s.data h
    have hparse : ParseID s = (String.mk (s.data.takeWhile (fun c => c != '/')),
        String.mk (s.data.dropWhile (fun c => c != '/')).tail) := by
      simp [ParseID, hsplit]
    rw [hparse]
    refine ⟨rfl, not_mem_takeWhile_slash s.data, rfl, ?_⟩
    apply String.ext
    simp only [String.data_append]
    rw [List.append_assoc, List.singleton_append]
    exact takeWhile_slash_tail s.data h

/-- Witness for C5 on the IDs of the tests: `"a-payload"` has no `"/"`,
`"somecharm/0/a-payload/my-payload"` has several and is split at the first. -/
theorem ParseID_splits_at_first_slash_witness :
    ('/' ∉ ("a-payload" : String).data ∧ ParseID "a-payload" = ("a-payload", "")) ∧
      ('/' ∈ ("somecharm/0/a-payload/my-payload" : String).data ∧
        ParseID "somecharm/0/a-payload/my-payload" = ("somecharm", "0/a-payload/my-payload") ∧
        (ParseID "somecharm/0/a-payload/my-payload").1 ++ "/" ++
          (ParseID "somecharm/0/a-payload/my-payload").2 = "somecharm/0/a-payload/my-payload") :=
  ⟨⟨by decide, (ParseID_splits_at_first_slash "a-payload").1 (by decide)⟩,
    ⟨by decide, by decide,
      ((ParseID_splits_at_first_slash "somecharm/0/a-payload/my-payload").2
        (by decide)).2.2.2⟩⟩

end ParseIDProps

end Juju
